import Mathlib

/-!
Shallow embedding of the quote engines of this repository
(src/lifinity.go: constant-product AMM; src/phoenix.go: order-book ladder).

Modelling conventions:
* Go `uint64` arithmetic is modelled over `Nat` with explicit wraparound
  `% 2^64` (helpers `add64`, `sub64` below).
* Go `float64` quantities (the AMM invariant `_k`, all ladder amounts) are
  modelled as exact rationals `ℚ`; the Go conversion `uint64(x)` of a
  non-negative float is truncation towards zero, modelled as `Nat.floor`.
* Go in-place mutation of a struct is modelled by returning the updated
  state next to the result.
* Go error values are distinct string messages compared by equality in
  `GetQuote`; they are modelled by an inductive error type with one
  constructor per distinct message.
-/

namespace Lifinity

/-- Width of the Go `uint64` type. -/
def U64 : ℕ := 2 ^ 64

/-- Go `uint64` addition (wraps modulo `2^64`). -/
def add64 (x y : ℕ) : ℕ := (x + y) % U64

/-- Go `uint64` subtraction (wraps modulo `2^64`); operands are `< 2^64`. -/
def sub64 (x y : ℕ) : ℕ := (x + U64 - y) % U64

/-- `LifinityLiquidity` from src/lifinity.go: reserves `A`, `B` (uint64) and
the cached constant product `_k` (float64, modelled as `ℚ`). -/
structure LifinityLiquidity where
  A : ℕ
  B : ℕ
  k : ℚ
  deriving DecidableEq

/-- `NewLifinityLiquidity` from src/lifinity.go: stores the reserves and
caches `_k = float64(a) * float64(b)`. -/
def NewLifinityLiquidity (a b : ℕ) : LifinityLiquidity :=
  { A := a, B := b, k := (a : ℚ) * (b : ℚ) }

/-- `Price` from src/lifinity.go: `A/B` for the AtoB direction, `B/A`
otherwise (float64 division, modelled over `ℚ`). -/
def LifinityLiquidity.Price (l : LifinityLiquidity) (aToB : Bool) : ℚ :=
  if aToB then (l.A : ℚ) / (l.B : ℚ) else (l.B : ℚ) / (l.A : ℚ)

/-- `K` from src/lifinity.go. -/
def LifinityLiquidity.K (l : LifinityLiquidity) : ℚ := l.k

/-- `LifinityFeeRate` from src/lifinity.go (basis points). -/
def LifinityFeeRate : ℕ := 50

/-- `QuoteParams` from src/lifinity.go. -/
structure QuoteParams where
  InAmount : ℕ
  AToB : Bool
  deriving DecidableEq

/-- `Quote` from src/lifinity.go (`PriceImpactBP` is a Go `uint`, 64-bit). -/
structure Quote where
  InAmount : ℕ
  OutAmount : ℕ
  PriceImpactBP : ℕ
  deriving DecidableEq

/-- The only error produced by the AMM `GetQuote`
(message "afterLiquidity is zero"). -/
inductive AmmErr where
  | afterLiquidityZero
  deriving DecidableEq

/-- `GetQuote` from src/lifinity.go, lines 49-83.  The Go method mutates the
receiver and returns a `*Quote`; here the updated state is returned next to
the quote.  Note the source ordering: the reserves are overwritten (lines
71-72) before `beforePrice` is read from the receiver (line 74). -/
def GetQuote (l : LifinityLiquidity) (params : QuoteParams) :
    Except AmmErr (Quote × LifinityLiquidity) :=
  let feeAmount := params.InAmount * LifinityFeeRate % U64 / 10000
  let afterA :=
    if params.AToB then sub64 (add64 l.A params.InAmount) feeAmount
    else ⌊l.K / ((sub64 (add64 l.B params.InAmount) feeAmount : ℕ) : ℚ)⌋₊
  let afterB :=
    if params.AToB then ⌊l.K / ((sub64 (add64 l.A params.InAmount) feeAmount : ℕ) : ℚ)⌋₊
    else sub64 (add64 l.B params.InAmount) feeAmount
  let outAmount :=
    if params.AToB then sub64 (sub64 l.B afterB) 1
    else sub64 (sub64 l.A afterA) 1
  if afterA = 0 ∨ afterB = 0 then
    Except.error AmmErr.afterLiquidityZero
  else
    let l' : LifinityLiquidity := { A := afterA, B := afterB, k := l.k }
    let beforePrice := l'.Price params.AToB
    let afterPrice := (afterA : ℚ) / (afterB : ℚ)
    let priceImpactBP := |afterPrice - beforePrice| / beforePrice * 10000
    Except.ok
      ({ InAmount := params.InAmount, OutAmount := outAmount,
         PriceImpactBP := ⌊priceImpactBP⌋₊ }, l')

end Lifinity

/-! Helper lemmas about the wraparound helpers and the float-to-integer
conversion, used to evaluate `Lifinity.GetQuote` on non-overflowing inputs. -/

lemma mod_helper_add (x y u : ℕ) (h : x + y < u) : (x + y) % u = x + y :=
  Nat.mod_eq_of_lt h

lemma mod_helper_sub (x y u : ℕ) (h1 : y ≤ x) (h2 : x < u) :
    (x + u - y) % u = x - y := by
  have hx : x + u - y = (x - y) + u := by omega
  rw [hx, Nat.add_mod_right, Nat.mod_eq_of_lt (by omega)]

lemma Lifinity.add64_eq (x y : ℕ) (h : x + y < U64) : add64 x y = x + y :=
  Nat.mod_eq_of_lt h

lemma Lifinity.sub64_eq (x y : ℕ) (h1 : y ≤ x) (h2 : x < U64) :
    sub64 x y = x - y :=
  mod_helper_sub x y U64 h1 h2

lemma floor_cast_div (x n : ℕ) : ⌊((x : ℕ) : ℚ) / ((n : ℕ) : ℚ)⌋₊ = x / n := by
  rw [Nat.floor_div_nat, Nat.floor_natCast]

namespace Lifinity

lemma fee_le_self (inA : ℕ) : inA * 50 / 10000 ≤ inA := by
  have h : inA * 50 ≤ inA * 10000 := Nat.mul_le_mul_left inA (by norm_num)
  calc inA * 50 / 10000 ≤ inA * 10000 / 10000 := Nat.div_le_div_right h
    _ = inA := Nat.mul_div_cancel inA (by norm_num)

/-- Closed form of `GetQuote` in the AtoB direction when no `uint64`
wraparound occurs in the fee and reserve-update arithmetic.  Note that
`PriceImpactBP` is always `0` on this path: the reserves are overwritten
before `beforePrice` is read, so `beforePrice` and `afterPrice` coincide. -/
lemma getQuote_AtoB_eq (a b inA : ℕ)
    (h1 : a + inA < U64) (h2 : inA * 50 < U64)
    (h4 : a + inA - inA * 50 / 10000 ≠ 0)
    (h5 : a * b / (a + inA - inA * 50 / 10000) ≠ 0) :
    GetQuote (NewLifinityLiquidity a b) { InAmount := inA, AToB := true } =
      Except.ok
        ({ InAmount := inA,
           OutAmount := sub64 (sub64 b (a * b / (a + inA - inA * 50 / 10000))) 1,
           PriceImpactBP := 0 },
         { A := a + inA - inA * 50 / 10000,
           B := a * b / (a + inA - inA * 50 / 10000),
           k := (a : ℚ) * (b : ℚ) }) := by
  have hfee : inA * 50 % U64 = inA * 50 := Nat.mod_eq_of_lt h2
  have hfee_le : inA * 50 / 10000 ≤ a + inA :=
    le_trans (fee_le_self inA) (Nat.le_add_left inA a)
  have hA : sub64 (add64 a inA) (inA * 50 / 10000) = a + inA - inA * 50 / 10000 := by
    rw [add64_eq a inA h1, sub64_eq _ _ hfee_le h1]
  have hB : ⌊((a : ℚ) * (b : ℚ)) / ((a + inA - inA * 50 / 10000 : ℕ) : ℚ)⌋₊ =
      a * b / (a + inA - inA * 50 / 10000) := by
    rw [← Nat.cast_mul, floor_cast_div]
  unfold GetQuote NewLifinityLiquidity
  simp only [LifinityLiquidity.K, LifinityLiquidity.Price, LifinityFeeRate,
    if_true, hfee, hA, hB]
  rw [if_neg (by simp [h4, h5])]
  simp [sub_self, abs_zero, zero_div, zero_mul, Nat.floor_zero]

/-- Inversion of a successful AtoB `GetQuote` call without wraparound in the
input-side update: the updated reserves and the quote it must have produced. -/
lemma getQuote_AtoB_ok (a b inA : ℕ) (q : Quote) (l2 : LifinityLiquidity)
    (h1 : a + inA < U64) (h2 : inA * 50 < U64)
    (hok : GetQuote (NewLifinityLiquidity a b) { InAmount := inA, AToB := true } =
      Except.ok (q, l2)) :
    l2.A = a + inA - inA * 50 / 10000 ∧
    l2.B = a * b / (a + inA - inA * 50 / 10000) ∧
    l2.A ≠ 0 ∧ l2.B ≠ 0 ∧ l2.k = (a : ℚ) * (b : ℚ) ∧ q.InAmount = inA ∧
    q.OutAmount = sub64 (sub64 b (a * b / (a + inA - inA * 50 / 10000))) 1 := by
  have hfee : inA * 50 % U64 = inA * 50 := Nat.mod_eq_of_lt h2
  have hfee_le : inA * 50 / 10000 ≤ a + inA :=
    le_trans (fee_le_self inA) (Nat.le_add_left inA a)
  have hA : sub64 (add64 a inA) (inA * 50 / 10000) = a + inA - inA * 50 / 10000 := by
    rw [add64_eq a inA h1, sub64_eq _ _ hfee_le h1]
  have hB : ⌊((a : ℚ) * (b : ℚ)) / ((a + inA - inA * 50 / 10000 : ℕ) : ℚ)⌋₊ =
      a * b / (a + inA - inA * 50 / 10000) := by
    rw [← Nat.cast_mul, floor_cast_div]
  unfold GetQuote NewLifinityLiquidity at hok
  simp only [LifinityLiquidity.K, LifinityLiquidity.Price, LifinityFeeRate,
    if_true, hfee, hA, hB] at hok
  split at hok
  next hc => exact absurd hok (by simp)
  next hc =>
    push_neg at hc
    injection hok with hok
    injection hok with hq hl
    refine ⟨by rw [← hl], by rw [← hl], ?_, ?_, by rw [← hl], by rw [← hq], by rw [← hq]⟩
    · rw [← hl]; exact hc.1
    · rw [← hl]; exact hc.2

/-- Inversion of a successful BtoA `GetQuote` call without wraparound in the
input-side update. -/
lemma getQuote_BtoA_ok (a b inA : ℕ) (q : Quote) (l2 : LifinityLiquidity)
    (h1 : b + inA < U64) (h2 : inA * 50 < U64)
    (hok : GetQuote (NewLifinityLiquidity a b) { InAmount := inA, AToB := false } =
      Except.ok (q, l2)) :
    l2.B = b + inA - inA * 50 / 10000 ∧
    l2.A = a * b / (b + inA - inA * 50 / 10000) ∧
    l2.A ≠ 0 ∧ l2.B ≠ 0 ∧ l2.k = (a : ℚ) * (b : ℚ) ∧ q.InAmount = inA ∧
    q.OutAmount = sub64 (sub64 a (a * b / (b + inA - inA * 50 / 10000))) 1 := by
  have hfee : inA * 50 % U64 = inA * 50 := Nat.mod_eq_of_lt h2
  have hfee_le : inA * 50 / 10000 ≤ b + inA :=
    le_trans (fee_le_self inA) (Nat.le_add_left inA b)
  have hB : sub64 (add64 b inA) (inA * 50 / 10000) = b + inA - inA * 50 / 10000 := by
    rw [add64_eq b inA h1, sub64_eq _ _ hfee_le h1]
  have hA : ⌊((a : ℚ) * (b : ℚ)) / ((b + inA - inA * 50 / 10000 : ℕ) : ℚ)⌋₊ =
      a * b / (b + inA - inA * 50 / 10000) := by
    rw [← Nat.cast_mul, floor_cast_div]
  unfold GetQuote NewLifinityLiquidity at hok
  simp only [LifinityLiquidity.K, LifinityLiquidity.Price, LifinityFeeRate,
    Bool.false_eq_true, if_false, hfee, hB, hA] at hok
  split at hok
  next hc => exact absurd hok (by simp)
  next hc =>
    push_neg at hc
    injection hok with hok
    injection hok with hq hl
    refine ⟨by rw [← hl], by rw [← hl], ?_, ?_, by rw [← hl], by rw [← hq], by rw [← hq]⟩
    · rw [← hl]; exact hc.1
    · rw [← hl]; exact hc.2

end Lifinity


namespace Phoenix

/-- `UiLadderLevel` from src/phoenix.go (float64 fields, modelled as `ℚ`). -/
structure UiLadderLevel where
  Price : ℚ
  Quantity : ℚ
  deriving DecidableEq

/-- `UiLadder` from src/phoenix.go: asks and bids, best price first. -/
structure UiLadder where
  Asks : List UiLadderLevel
  Bids : List UiLadderLevel
  deriving DecidableEq

/-- `Hoenix` from src/phoenix.go.  Only the `Data.TakerFeeBps` field is read
by the quote path; the remaining fields (market states, clock, header
metadata) are never consulted and are omitted. -/
structure Hoenix where
  TakerFeeBps : ℚ
  deriving DecidableEq

/-- `FeeScale` from src/phoenix.go. -/
def FeeScale : ℚ := 10000

/-- `Side` from src/phoenix.go. -/
inductive Side where
  | Bid
  | Ask
  deriving DecidableEq

/-- `QuoteParams` from src/phoenix.go. -/
structure QuoteParams where
  InAmount : ℚ
  AToB : Bool
  deriving DecidableEq

/-- `Quote` from src/phoenix.go. -/
structure Quote where
  InAmount : ℚ
  OutAmount : ℚ
  deriving DecidableEq

/-- The distinct error messages produced in src/phoenix.go, one constructor
per message (`GetQuote` compares messages by string equality). -/
inductive LadderErr where
  | inputNotPositive
  | quoteUnitsNotPositive
  | baseUnitsNotPositive
  | notEnoughLiquidity
  | notEnoughForRequested
  | updatedLadderEmpty
  deriving DecidableEq

/-- `applyTakerFee` from src/phoenix.go. -/
def applyTakerFee (amount takerFeeBps : ℚ) : ℚ :=
  amount / (1 + takerFeeBps / FeeScale)

/-- The loop of `calculateBaseAmountFromQuoteBudget` (src/phoenix.go lines
143-154), returning the accumulated base amount and the final budget.  The
Go accumulator variable is expressed as the returned running sum. -/
def calcBaseLoop : List UiLadderLevel → ℚ → ℚ × ℚ
  | [], quoteBudget => (0, quoteBudget)
  | level :: rest, quoteBudget =>
    if level.Price * level.Quantity ≥ quoteBudget then
      (quoteBudget / level.Price, 0)
    else
      let quoteBudget' := quoteBudget - level.Price * level.Quantity
      if quoteBudget' ≤ 0 then (level.Quantity, quoteBudget')
      else
        let r := calcBaseLoop rest quoteBudget'
        (level.Quantity + r.1, r.2)

/-- The loop of `calculateQuoteAmountFromBaseBudget` (src/phoenix.go lines
165-176). -/
def calcQuoteLoop : List UiLadderLevel → ℚ → ℚ × ℚ
  | [], baseBudget => (0, baseBudget)
  | level :: rest, baseBudget =>
    if level.Quantity ≥ baseBudget then
      (baseBudget * level.Price, 0)
    else
      let baseBudget' := baseBudget - level.Quantity
      if baseBudget' ≤ 0 then (level.Quantity * level.Price, baseBudget')
      else
        let r := calcQuoteLoop rest baseBudget'
        (level.Quantity * level.Price + r.1, r.2)

/-- `calculateBaseAmountFromQuoteBudget` from src/phoenix.go: errors when
the budget is still strictly positive after the walk. -/
def calculateBaseAmountFromQuoteBudget (asks : List UiLadderLevel)
    (quoteBudget : ℚ) : Except LadderErr ℚ :=
  let r := calcBaseLoop asks quoteBudget
  if r.2 > 0 then Except.error LadderErr.notEnoughLiquidity else Except.ok r.1

/-- `calculateQuoteAmountFromBaseBudget` from src/phoenix.go. -/
def calculateQuoteAmountFromBaseBudget (bids : List UiLadderLevel)
    (baseBudget : ℚ) : Except LadderErr ℚ :=
  let r := calcQuoteLoop bids baseBudget
  if r.2 > 0 then Except.error LadderErr.notEnoughLiquidity else Except.ok r.1

/-- `getBaseUnitsOutFromQuoteUnitsIn` from src/phoenix.go. -/
def getBaseUnitsOutFromQuoteUnitsIn (asks : List UiLadderLevel)
    (quoteUnitsIn : ℚ) : Except LadderErr ℚ :=
  if quoteUnitsIn ≤ 0 then Except.error LadderErr.quoteUnitsNotPositive
  else calculateBaseAmountFromQuoteBudget asks quoteUnitsIn

/-- `getQuoteUnitsOutFromBaseUnitsIn` from src/phoenix.go. -/
def getQuoteUnitsOutFromBaseUnitsIn (bids : List UiLadderLevel)
    (baseUnitsIn : ℚ) : Except LadderErr ℚ :=
  if baseUnitsIn ≤ 0 then Except.error LadderErr.baseUnitsNotPositive
  else calculateQuoteAmountFromBaseBudget bids baseUnitsIn

/-- `getExpectedOutAmount` from src/phoenix.go. -/
def getExpectedOutAmount (_h : Hoenix) (uiLadder : UiLadder) (side : Side)
    (takerFeeBps inAmount : ℚ) : Except LadderErr ℚ :=
  if inAmount ≤ 0 then Except.error LadderErr.inputNotPositive
  else
    let adjustedAmount := applyTakerFee inAmount takerFeeBps
    match side with
    | Side.Bid => getBaseUnitsOutFromQuoteUnitsIn uiLadder.Asks adjustedAmount
    | Side.Ask => getQuoteUnitsOutFromBaseUnitsIn uiLadder.Bids adjustedAmount

/-- The per-side loop of `updateLadderLiquidity` (src/phoenix.go lines
187-195 for bids, 197-205 for asks; the two Go loops are textually
identical up to the side, so a single definition is applied to either
side's list). -/
def updateSide : List UiLadderLevel → ℚ → List UiLadderLevel
  | [], _ => []
  | level :: rest, amount =>
    if level.Quantity ≥ amount then
      { level with Quantity := level.Quantity - amount } :: rest
    else
      { level with Quantity := 0 } :: updateSide rest (amount - level.Quantity)

/-- `updateLadderLiquidity` from src/phoenix.go. -/
def updateLadderLiquidity (ladder : UiLadder) (side : Side) (amount : ℚ) :
    UiLadder :=
  match side with
  | Side.Bid => { ladder with Bids := updateSide ladder.Bids amount }
  | Side.Ask => { ladder with Asks := updateSide ladder.Asks amount }

/-- `GetQuote` from src/phoenix.go, lines 77-107.  The Go method mutates the
ladder through the pointer even on the final error path; the second
component of the result is the ladder's state after the call. -/
def GetQuote (h : Hoenix) (params : QuoteParams) (ladder : UiLadder) :
    Except LadderErr Quote × UiLadder :=
  let side := if params.AToB then Side.Bid else Side.Ask
  match getExpectedOutAmount h ladder side h.TakerFeeBps params.InAmount with
  | Except.error e =>
    if e = LadderErr.notEnoughLiquidity then
      (Except.error LadderErr.notEnoughForRequested, ladder)
    else (Except.error e, ladder)
  | Except.ok expectedOutAmount =>
    let ladder' :=
      if params.AToB then updateLadderLiquidity ladder Side.Ask expectedOutAmount
      else updateLadderLiquidity ladder Side.Bid params.InAmount
    if ladder'.Asks = [] ∨ ladder'.Bids = [] then
      (Except.error LadderErr.updatedLadderEmpty, ladder')
    else
      (Except.ok { InAmount := params.InAmount, OutAmount := expectedOutAmount },
       ladder')

/-- Total remaining size on one side of the ladder. -/
def totalQty (ls : List UiLadderLevel) : ℚ := (ls.map fun l => l.Quantity).sum

lemma totalQty_nil : totalQty [] = 0 := rfl

lemma totalQty_cons (l : UiLadderLevel) (ls : List UiLadderLevel) :
    totalQty (l :: ls) = l.Quantity + totalQty ls := by
  simp [totalQty]

lemma totalQty_nonneg (ls : List UiLadderLevel)
    (hq : ∀ l ∈ ls, 0 ≤ l.Quantity) : 0 ≤ totalQty ls := by
  refine List.sum_nonneg ?_
  intro x hx
  rcases List.mem_map.mp hx with ⟨l, hl, rfl⟩
  exact hq l hl

lemma updateSide_length (ls : List UiLadderLevel) (a : ℚ) :
    (updateSide ls a).length = ls.length := by
  induction ls generalizing a with
  | nil => rfl
  | cons l rest ih =>
    by_cases h : l.Quantity ≥ a
    · simp [updateSide, h]
    · simp [updateSide, h, ih]

lemma updateSide_eq_nil_iff (ls : List UiLadderLevel) (a : ℚ) :
    updateSide ls a = [] ↔ ls = [] := by
  cases ls with
  | nil => simp [updateSide]
  | cons l rest =>
    constructor
    · intro h
      by_cases hc : l.Quantity ≥ a <;> simp [updateSide, hc] at h
    · intro h
      exact absurd h (List.cons_ne_nil _ _)

lemma forall₂_qty_refl (ls : List UiLadderLevel) :
    List.Forall₂ (fun l l2 => l2.Quantity ≤ l.Quantity) ls ls := by
  induction ls with
  | nil => exact List.Forall₂.nil
  | cons l rest ih => exact List.Forall₂.cons le_rfl ih

lemma forall₂_qty_updateSide (ls : List UiLadderLevel) (a : ℚ)
    (ha : 0 ≤ a) (hq : ∀ l ∈ ls, 0 ≤ l.Quantity) :
    List.Forall₂ (fun l l2 => l2.Quantity ≤ l.Quantity) ls (updateSide ls a) := by
  induction ls generalizing a with
  | nil => exact List.Forall₂.nil
  | cons l rest ih =>
    by_cases h : l.Quantity ≥ a
    · rw [updateSide, if_pos h]
      exact List.Forall₂.cons (by simpa using sub_le_self l.Quantity ha)
        (forall₂_qty_refl rest)
    · rw [updateSide, if_neg h]
      refine List.Forall₂.cons ?_ (ih (a - l.Quantity) (by push_neg at h; linarith)
        (fun x hx => hq x (List.mem_cons_of_mem l hx)))
      exact hq l (List.mem_cons_self l rest)

lemma totalQty_updateSide (ls : List UiLadderLevel) (a : ℚ)
    (ha : 0 ≤ a) (hq : ∀ l ∈ ls, 0 ≤ l.Quantity) :
    totalQty (updateSide ls a) = totalQty ls - min a (totalQty ls) := by
  induction ls generalizing a with
  | nil =>
    rw [updateSide, totalQty_nil, min_eq_right ha]
    ring
  | cons l rest ih =>
    have hq0 : 0 ≤ l.Quantity := hq l (List.mem_cons_self l rest)
    have hqr : ∀ x ∈ rest, 0 ≤ x.Quantity :=
      fun x hx => hq x (List.mem_cons_of_mem l hx)
    have hrt : 0 ≤ totalQty rest := totalQty_nonneg rest hqr
    by_cases h : l.Quantity ≥ a
    · rw [updateSide, if_pos h, totalQty_cons, totalQty_cons]
      rw [min_eq_left (by linarith)]
      ring
    · push_neg at h
      rw [updateSide, if_neg (not_le.mpr h), totalQty_cons, totalQty_cons,
        ih (a - l.Quantity) (by linarith) hqr]
      rcases le_total (a - l.Quantity) (totalQty rest) with h1 | h1
      · rw [min_eq_left h1, min_eq_left (by linarith)]
        ring
      · rw [min_eq_right h1, min_eq_right (by linarith)]
        ring

lemma calcBaseLoop_fst_nonneg (ls : List UiLadderLevel) (budget : ℚ)
    (hl : ∀ l ∈ ls, 0 < l.Price ∧ 0 ≤ l.Quantity) (hb : 0 ≤ budget) :
    0 ≤ (calcBaseLoop ls budget).1 := by
  induction ls generalizing budget with
  | nil => simp [calcBaseLoop]
  | cons l rest ih =>
    have hp := (hl l (List.mem_cons_self l rest)).1
    have hq := (hl l (List.mem_cons_self l rest)).2
    have hlr : ∀ x ∈ rest, 0 < x.Price ∧ 0 ≤ x.Quantity :=
      fun x hx => hl x (List.mem_cons_of_mem l hx)
    by_cases h : l.Price * l.Quantity ≥ budget
    · rw [calcBaseLoop, if_pos h]
      exact div_nonneg hb (le_of_lt hp)
    · rw [calcBaseLoop, if_neg h]
      by_cases h2 : budget - l.Price * l.Quantity ≤ 0
      · rw [if_pos h2]
        exact hq
      · rw [if_neg h2]
        push_neg at h2
        exact add_nonneg hq (ih (budget - l.Price * l.Quantity) hlr (le_of_lt h2))

lemma calcBaseLoop_fst_le_total (ls : List UiLadderLevel) (budget : ℚ)
    (hl : ∀ l ∈ ls, 0 < l.Price ∧ 0 ≤ l.Quantity) :
    (calcBaseLoop ls budget).1 ≤ totalQty ls := by
  induction ls generalizing budget with
  | nil => simp [calcBaseLoop, totalQty_nil]
  | cons l rest ih =>
    have hp := (hl l (List.mem_cons_self l rest)).1
    have hlr : ∀ x ∈ rest, 0 < x.Price ∧ 0 ≤ x.Quantity :=
      fun x hx => hl x (List.mem_cons_of_mem l hx)
    have hrt : 0 ≤ totalQty rest :=
      totalQty_nonneg rest (fun x hx => (hlr x hx).2)
    by_cases h : l.Price * l.Quantity ≥ budget
    · rw [calcBaseLoop, if_pos h, totalQty_cons]
      have hd : budget / l.Price ≤ l.Quantity := by
        rw [div_le_iff₀ hp]
        linarith [ge_iff_le.mp h]
      linarith
    · rw [calcBaseLoop, if_neg h, totalQty_cons]
      by_cases h2 : budget - l.Price * l.Quantity ≤ 0
      · rw [if_pos h2]
        linarith
      · rw [if_neg h2]
        have := ih (budget - l.Price * l.Quantity) hlr
        simpa using add_le_add_left this l.Quantity

lemma getExpectedOutAmount_bid_ok (h : Hoenix) (ladder : UiLadder)
    (fee inA out : ℚ)
    (hok : getExpectedOutAmount h ladder Side.Bid fee inA = Except.ok out) :
    0 < inA ∧ 0 < applyTakerFee inA fee ∧
      (calcBaseLoop ladder.Asks (applyTakerFee inA fee)).1 = out ∧
      (calcBaseLoop ladder.Asks (applyTakerFee inA fee)).2 ≤ 0 := by
  unfold getExpectedOutAmount at hok
  by_cases h1 : inA ≤ 0
  · simp [h1] at hok
  · rw [if_neg h1] at hok
    unfold getBaseUnitsOutFromQuoteUnitsIn at hok
    dsimp only at hok
    by_cases h2 : applyTakerFee inA fee ≤ 0
    · simp [h2] at hok
    · rw [if_neg h2] at hok
      unfold calculateBaseAmountFromQuoteBudget at hok
      dsimp only at hok
      by_cases h3 : (calcBaseLoop ladder.Asks (applyTakerFee inA fee)).2 > 0
      · simp [h3] at hok
      · rw [if_neg h3] at hok
        push_neg at h1 h2 h3
        exact ⟨h1, h2, Except.ok.inj hok, h3⟩

lemma getExpectedOutAmount_ask_ok (h : Hoenix) (ladder : UiLadder)
    (fee inA out : ℚ)
    (hok : getExpectedOutAmount h ladder Side.Ask fee inA = Except.ok out) :
    0 < inA ∧ 0 < applyTakerFee inA fee ∧
      (calcQuoteLoop ladder.Bids (applyTakerFee inA fee)).1 = out ∧
      (calcQuoteLoop ladder.Bids (applyTakerFee inA fee)).2 ≤ 0 := by
  unfold getExpectedOutAmount at hok
  by_cases h1 : inA ≤ 0
  · simp [h1] at hok
  · rw [if_neg h1] at hok
    unfold getQuoteUnitsOutFromBaseUnitsIn at hok
    dsimp only at hok
    by_cases h2 : applyTakerFee inA fee ≤ 0
    · simp [h2] at hok
    · rw [if_neg h2] at hok
      unfold calculateQuoteAmountFromBaseBudget at hok
      dsimp only at hok
      by_cases h3 : (calcQuoteLoop ladder.Bids (applyTakerFee inA fee)).2 > 0
      · simp [h3] at hok
      · rw [if_neg h3] at hok
        push_neg at h1 h2 h3
        exact ⟨h1, h2, Except.ok.inj hok, h3⟩

lemma getQuote_ok_inv (h : Hoenix) (p : QuoteParams) (ladder : UiLadder)
    (q : Quote) (lad2 : UiLadder)
    (hok : GetQuote h p ladder = (Except.ok q, lad2)) :
    ∃ out,
      getExpectedOutAmount h ladder (if p.AToB then Side.Bid else Side.Ask)
          h.TakerFeeBps p.InAmount = Except.ok out ∧
      q = { InAmount := p.InAmount, OutAmount := out } ∧
      lad2 = (if p.AToB then { ladder with Asks := updateSide ladder.Asks out }
              else { ladder with Bids := updateSide ladder.Bids p.InAmount }) ∧
      ¬(lad2.Asks = [] ∨ lad2.Bids = []) := by
  unfold GetQuote at hok
  dsimp only at hok
  cases hexp : getExpectedOutAmount h ladder
      (if p.AToB then Side.Bid else Side.Ask) h.TakerFeeBps p.InAmount with
  | error e =>
    rw [hexp] at hok
    by_cases he : e = LadderErr.notEnoughLiquidity <;> simp [he] at hok
  | ok out =>
    rw [hexp] at hok
    refine ⟨out, rfl, ?_⟩
    cases hab : p.AToB with
    | true =>
      simp only [hab, if_true, updateLadderLiquidity] at hok ⊢
      split at hok
      next hemp =>
        have hfst := congrArg Prod.fst hok
        simp at hfst
      next hemp =>
        injection hok with h1 h2
        injection h1 with h1
        refine ⟨h1.symm, h2.symm, ?_⟩
        rw [← h2]
        exact hemp
    | false =>
      simp only [hab, Bool.false_eq_true, if_false, updateLadderLiquidity] at hok ⊢
      split at hok
      next hemp =>
        have hfst := congrArg Prod.fst hok
        simp at hfst
      next hemp =>
        injection hok with h1 h2
        injection h1 with h1
        refine ⟨h1.symm, h2.symm, ?_⟩
        rw [← h2]
        exact hemp

end Phoenix

/-!
Claim theorems.  Each claim of the specification audit gets exactly one
theorem below (plus, where required, a counterexample or a witness).
-/

/-- Claim C1: the claim states that `PriceImpactBP` is the relative change
between the pre-trade and the post-trade price, strictly positive for
reserves (1000, 20000) and `quote(10, AtoB)`.  The code overwrites the
reserves (src/lifinity.go lines 71-72) before reading `beforePrice`
(line 74), so for AtoB trades `beforePrice` equals `afterPrice` and the
returned impact is `0` — the true pre-trade price `1000/20000` is never
used.  The theorem evaluates the embedded code at exactly the claimed
scenario and shows `PriceImpactBP = 0`. -/
theorem c1_price_impact_zero_at_claimed_scenario :
    Lifinity.GetQuote (Lifinity.NewLifinityLiquidity 1000 20000)
        { InAmount := 10, AToB := true } =
      Except.ok ({ InAmount := 10, OutAmount := 198, PriceImpactBP := 0 },
        { A := 1010, B := 19801, k := 20000000 }) := by
  rw [Lifinity.getQuote_AtoB_eq 1000 20000 10 (by decide) (by decide) (by decide)
    (by decide)]
  norm_num [Lifinity.sub64, Lifinity.U64]

/-- Claim C2, counterexample: the AMM engine has no zero-input check at all,
so `quote(0, AtoB)` on a freshly constructed pool succeeds (with an
underflowed output amount) instead of failing with an invalid-input error. -/
theorem c2_counterexample_amm_accepts_zero_input :
    Lifinity.GetQuote (Lifinity.NewLifinityLiquidity 1000 20000)
        { InAmount := 0, AToB := true } =
      Except.ok ({ InAmount := 0, OutAmount := 2 ^ 64 - 1, PriceImpactBP := 0 },
        { A := 1000, B := 20000, k := 20000000 }) := by
  rw [Lifinity.getQuote_AtoB_eq 1000 20000 0 (by decide) (by decide) (by decide)
    (by decide)]
  norm_num [Lifinity.sub64, Lifinity.U64]

/-- Claim C2, amended: only the ladder engine rejects non-positive input.
For every ladder quote with `InAmount ≤ 0` the call fails with the
invalid-input error, the ladder is returned unchanged, and repeating the
failing call on the resulting state produces the identical error and
state. -/
theorem c2_ladder_rejects_nonpositive_input (h : Phoenix.Hoenix)
    (p : Phoenix.QuoteParams) (ladder : Phoenix.UiLadder)
    (hin : p.InAmount ≤ 0) :
    Phoenix.GetQuote h p ladder =
      (Except.error Phoenix.LadderErr.inputNotPositive, ladder) ∧
    Phoenix.GetQuote h p (Phoenix.GetQuote h p ladder).2 =
      (Except.error Phoenix.LadderErr.inputNotPositive, ladder) := by
  have hexp : ∀ s, Phoenix.getExpectedOutAmount h ladder s h.TakerFeeBps
      p.InAmount = Except.error Phoenix.LadderErr.inputNotPositive := by
    intro s
    unfold Phoenix.getExpectedOutAmount
    rw [if_pos hin]
  have hmain : Phoenix.GetQuote h p ladder =
      (Except.error Phoenix.LadderErr.inputNotPositive, ladder) := by
    unfold Phoenix.GetQuote
    dsimp only
    rw [hexp]
    simp
  refine ⟨hmain, ?_⟩
  rw [hmain]
  exact hmain

/-- Claim C2, witness for the amended theorem at a concrete input. -/
theorem c2_ladder_rejects_nonpositive_input_witness :
    Phoenix.GetQuote { TakerFeeBps := 5 } { InAmount := 0, AToB := true }
        { Asks := [⟨25, 10⟩], Bids := [⟨20, 10⟩] } =
      (Except.error Phoenix.LadderErr.inputNotPositive,
       { Asks := [⟨25, 10⟩], Bids := [⟨20, 10⟩] }) ∧
    Phoenix.GetQuote { TakerFeeBps := 5 } { InAmount := 0, AToB := true }
        (Phoenix.GetQuote { TakerFeeBps := 5 } { InAmount := 0, AToB := true }
          { Asks := [⟨25, 10⟩], Bids := [⟨20, 10⟩] }).2 =
      (Except.error Phoenix.LadderErr.inputNotPositive,
       { Asks := [⟨25, 10⟩], Bids := [⟨20, 10⟩] }) :=
  c2_ladder_rejects_nonpositive_input { TakerFeeBps := 5 }
    { InAmount := 0, AToB := true } { Asks := [⟨25, 10⟩], Bids := [⟨20, 10⟩] }
    (by norm_num)

/-- Claim C4, counterexample: the claim predicts an effective input of
`floor(amount * (10000 - fee) / 10000)`, i.e. `floor(10 * 9950/10000) = 9`
for `amount = 10`, but the code truncates the fee term instead and adds
`10 - floor(10*50/10000) = 10` to the input reserve: the pool
(100, 5000) moves to `A = 110`, not `A = 109`. -/
theorem c4_counterexample_effective_input_not_floor :
    Lifinity.GetQuote (Lifinity.NewLifinityLiquidity 100 5000)
        { InAmount := 10, AToB := true } =
      Except.ok ({ InAmount := 10, OutAmount := 454, PriceImpactBP := 0 },
        { A := 110, B := 4545, k := 500000 }) ∧
    (110 : ℕ) - 100 ≠ 10 * (10000 - 50) / 10000 := by
  constructor
  · rw [Lifinity.getQuote_AtoB_eq 100 5000 10 (by decide) (by decide) (by decide)
      (by decide)]
    norm_num [Lifinity.sub64, Lifinity.U64]
  · decide

/-- Claim C4, amended: for every successful AMM quote without `uint64`
wraparound, the effective input added to the input-side reserve is
`amount - floor(amount * 50 / 10000)` — the fee is truncated, not the net —
which equals the ceiling `(amount * (10000 - 50) + 9999) / 10000`, not the
floor. -/
theorem c4_effective_input_truncates_fee (a b inA : ℕ) (q : Lifinity.Quote)
    (l2 : Lifinity.LifinityLiquidity)
    (hA : a + inA < Lifinity.U64) (hB : b + inA < Lifinity.U64)
    (hf : inA * 50 < Lifinity.U64) :
    (Lifinity.GetQuote (Lifinity.NewLifinityLiquidity a b)
        { InAmount := inA, AToB := true } = Except.ok (q, l2) →
      l2.A - a = inA - inA * 50 / 10000) ∧
    (Lifinity.GetQuote (Lifinity.NewLifinityLiquidity a b)
        { InAmount := inA, AToB := false } = Except.ok (q, l2) →
      l2.B - b = inA - inA * 50 / 10000) ∧
    inA - inA * 50 / 10000 = (inA * (10000 - 50) + 9999) / 10000 := by
  refine ⟨?_, ?_, by omega⟩
  · intro hok
    obtain ⟨h1, -⟩ := Lifinity.getQuote_AtoB_ok a b inA q l2 hA hf hok
    have := Lifinity.fee_le_self inA
    omega
  · intro hok
    obtain ⟨h1, -⟩ := Lifinity.getQuote_BtoA_ok a b inA q l2 hB hf hok
    have := Lifinity.fee_le_self inA
    omega

/-- Claim C4, witness for the amended theorem: the pool (1000, 20000) with
a 10-unit AtoB trade really moves its input reserve by `10 - 0 = 10`. -/
theorem c4_effective_input_truncates_fee_witness :
    ({ A := 1010, B := 19801, k := 20000000 } :
      Lifinity.LifinityLiquidity).A - 1000 = 10 - 10 * 50 / 10000 :=
  (c4_effective_input_truncates_fee 1000 20000 10
      { InAmount := 10, OutAmount := 198, PriceImpactBP := 0 }
      { A := 1010, B := 19801, k := 20000000 }
      (by decide) (by decide) (by decide)).1
    (by rw [Lifinity.getQuote_AtoB_eq 1000 20000 10 (by decide) (by decide)
          (by decide) (by decide)]
        norm_num [Lifinity.sub64, Lifinity.U64])

/-- Claim C5, counterexample: the deviation of the reserve product from `k`
is not bounded by a constant independent of trade size.  On the pool
(1000, 20000), a 100-unit trade leaves deviation `900`, while a
1000000-unit trade leaves deviation `80000`. -/
theorem c5_counterexample_deviation_grows_with_trade :
    (Lifinity.GetQuote (Lifinity.NewLifinityLiquidity 1000 20000)
        { InAmount := 100, AToB := true } =
      Except.ok ({ InAmount := 100, OutAmount := 1818, PriceImpactBP := 0 },
        { A := 1100, B := 18181, k := 20000000 })) ∧
    (Lifinity.GetQuote (Lifinity.NewLifinityLiquidity 1000 20000)
        { InAmount := 1000000, AToB := true } =
      Except.ok ({ InAmount := 1000000, OutAmount := 19979, PriceImpactBP := 0 },
        { A := 996000, B := 20, k := 20000000 })) ∧
    1000 * 20000 - 1100 * 18181 = (900 : ℕ) ∧
    1000 * 20000 - 996000 * 20 = (80000 : ℕ) ∧ (900 : ℕ) ≠ 80000 := by
  refine ⟨?_, ?_, by decide, by decide, by decide⟩
  · rw [Lifinity.getQuote_AtoB_eq 1000 20000 100 (by decide) (by decide)
      (by decide) (by decide)]
    norm_num [Lifinity.sub64, Lifinity.U64]
  · rw [Lifinity.getQuote_AtoB_eq 1000 20000 1000000 (by decide) (by decide)
      (by decide) (by decide)]
    norm_num [Lifinity.sub64, Lifinity.U64]

/-- Claim C5, amended: for every successful quote without wraparound on a
pool built by `NewLifinityLiquidity`, the updated reserves satisfy
`A' * B' ≤ a * b`, and the deviation equals `a * b` modulo the updated
input-side reserve — hence it is bounded by (and can grow with) the updated
input-side reserve, not by a trade-size-independent constant. -/
theorem c5_invariant_preserved_deviation_mod (a b inA : ℕ)
    (q : Lifinity.Quote) (l2 : Lifinity.LifinityLiquidity)
    (hA : a + inA < Lifinity.U64) (hB : b + inA < Lifinity.U64)
    (hf : inA * 50 < Lifinity.U64) :
    (Lifinity.GetQuote (Lifinity.NewLifinityLiquidity a b)
        { InAmount := inA, AToB := true } = Except.ok (q, l2) →
      l2.A * l2.B ≤ a * b ∧ a * b - l2.A * l2.B = a * b % l2.A ∧
        a * b % l2.A < l2.A) ∧
    (Lifinity.GetQuote (Lifinity.NewLifinityLiquidity a b)
        { InAmount := inA, AToB := false } = Except.ok (q, l2) →
      l2.A * l2.B ≤ a * b ∧ a * b - l2.A * l2.B = a * b % l2.B ∧
        a * b % l2.B < l2.B) := by
  constructor
  · intro hok
    obtain ⟨h1, h2, h3, h4, h5, h6, h7⟩ :=
      Lifinity.getQuote_AtoB_ok a b inA q l2 hA hf hok
    have hpos : 0 < l2.A := Nat.pos_of_ne_zero h3
    have hB2 : l2.B = a * b / l2.A := by rw [h2, ← h1]
    have hdm := Nat.div_add_mod (a * b) l2.A
    have hmul : l2.A * l2.B ≤ a * b := by
      rw [hB2, mul_comm l2.A]
      exact Nat.div_mul_le_self (a * b) l2.A
    refine ⟨hmul, ?_, Nat.mod_lt _ hpos⟩
    rw [hB2]
    omega
  · intro hok
    obtain ⟨h1, h2, h3, h4, h5, h6, h7⟩ :=
      Lifinity.getQuote_BtoA_ok a b inA q l2 hB hf hok
    have hpos : 0 < l2.B := Nat.pos_of_ne_zero h4
    have hA2 : l2.A = a * b / l2.B := by rw [h2, ← h1]
    have hdm := Nat.div_add_mod' (a * b) l2.B
    have hmul : l2.A * l2.B ≤ a * b := by
      rw [hA2]
      exact Nat.div_mul_le_self (a * b) l2.B
    refine ⟨hmul, ?_, Nat.mod_lt _ hpos⟩
    rw [hA2]
    omega

/-- Claim C5, witness for the amended theorem at the pool (1000, 20000)
with a 10-unit AtoB trade. -/
theorem c5_invariant_preserved_deviation_mod_witness :
    ({ A := 1010, B := 19801, k := 20000000 } :
        Lifinity.LifinityLiquidity).A *
      ({ A := 1010, B := 19801, k := 20000000 } :
        Lifinity.LifinityLiquidity).B ≤ 1000 * 20000 ∧
    1000 * 20000 - ({ A := 1010, B := 19801, k := 20000000 } :
        Lifinity.LifinityLiquidity).A *
      ({ A := 1010, B := 19801, k := 20000000 } :
        Lifinity.LifinityLiquidity).B =
      1000 * 20000 % ({ A := 1010, B := 19801, k := 20000000 } :
        Lifinity.LifinityLiquidity).A ∧
    1000 * 20000 % ({ A := 1010, B := 19801, k := 20000000 } :
        Lifinity.LifinityLiquidity).A <
      ({ A := 1010, B := 19801, k := 20000000 } :
        Lifinity.LifinityLiquidity).A :=
  (c5_invariant_preserved_deviation_mod 1000 20000 10
      { InAmount := 10, OutAmount := 198, PriceImpactBP := 0 }
      { A := 1010, B := 19801, k := 20000000 }
      (by decide) (by decide) (by decide)).1
    (by rw [Lifinity.getQuote_AtoB_eq 1000 20000 10 (by decide) (by decide)
          (by decide) (by decide)]
        norm_num [Lifinity.sub64, Lifinity.U64])

/-- Claim C10: whenever the recomputed opposite-side reserve
`floor(k / newInputReserve)` is at least the current opposite-side reserve
(which, absent wraparound, happens exactly for zero input), the `uint64`
subtraction `reserveOut - afterOut - 1` underflows: the call succeeds, the
returned `OutAmount` is `2^64 - 1` (the wrapped value of `-1`), and the
reserves are written back (with their unchanged values). -/
theorem c10_zero_input_underflow (a b inA : ℕ)
    (ha : 0 < a) (hb : 0 < b)
    (h1 : a + inA < Lifinity.U64) (h2 : inA * 50 < Lifinity.U64)
    (htrig : b ≤ a * b / (a + inA - inA * 50 / 10000)) :
    Lifinity.GetQuote (Lifinity.NewLifinityLiquidity a b)
        { InAmount := inA, AToB := true } =
      Except.ok ({ InAmount := inA, OutAmount := 2 ^ 64 - 1, PriceImpactBP := 0 },
        { A := a, B := b, k := (a : ℚ) * (b : ℚ) }) := by
  have hfee := Lifinity.fee_le_self inA
  have hA0 : a ≤ a + inA - inA * 50 / 10000 := by omega
  have hApos : 0 < a + inA - inA * 50 / 10000 := lt_of_lt_of_le ha hA0
  have hle : a * b / (a + inA - inA * 50 / 10000) ≤ b := by
    calc a * b / (a + inA - inA * 50 / 10000) ≤ a * b / a :=
          Nat.div_le_div_left hA0 ha
      _ = b := Nat.mul_div_cancel_left b ha
  have heq : a * b / (a + inA - inA * 50 / 10000) = b := le_antisymm hle htrig
  have hAa : a + inA - inA * 50 / 10000 = a := by
    by_contra hne
    have hgt : a < a + inA - inA * 50 / 10000 := lt_of_le_of_ne hA0 (Ne.symm hne)
    have : (a + inA - inA * 50 / 10000) * b ≤ a * b :=
      calc (a + inA - inA * 50 / 10000) * b
          = b * (a + inA - inA * 50 / 10000) := mul_comm _ _
        _ = (a * b / (a + inA - inA * 50 / 10000)) *
              (a + inA - inA * 50 / 10000) := by rw [heq]
        _ ≤ a * b := Nat.div_mul_le_self _ _
    have hXle := Nat.le_of_mul_le_mul_right this hb
    omega
  have hin0 : inA = 0 := by omega
  subst hin0
  have hB0 : a * b / (a + 0 - 0 * 50 / 10000) ≠ 0 := by
    rw [heq]
    omega
  rw [Lifinity.getQuote_AtoB_eq a b 0 h1 h2 (by omega) hB0]
  have hsub1 : Lifinity.sub64 b (a * b / (a + 0 - 0 * 50 / 10000)) = 0 := by
    rw [heq]
    unfold Lifinity.sub64
    rw [show b + Lifinity.U64 - b = Lifinity.U64 by omega, Nat.mod_self]
  rw [hsub1]
  have hsub2 : Lifinity.sub64 0 1 = 2 ^ 64 - 1 := by
    unfold Lifinity.sub64 Lifinity.U64
    norm_num
  rw [hsub2, heq, hAa]

/-- Claim C10, witness: zero input on the freshly constructed pool
(1000, 20000) succeeds with `OutAmount = 2^64 - 1`. -/
theorem c10_zero_input_underflow_witness :
    Lifinity.GetQuote (Lifinity.NewLifinityLiquidity 1000 20000)
        { InAmount := 0, AToB := true } =
      Except.ok ({ InAmount := 0, OutAmount := 2 ^ 64 - 1, PriceImpactBP := 0 },
        { A := 1000, B := 20000, k := ((1000 : ℕ) : ℚ) * ((20000 : ℕ) : ℚ) }) :=
  c10_zero_input_underflow 1000 20000 0 (by decide) (by decide) (by decide)
    (by decide) (by decide)

/-- Claim C3, counterexample: the walk computes over local accumulators and
the ladder is depleted only on success, so an insufficient-liquidity quote
leaves the ladder unchanged — the walked level keeps its full size 10
instead of "remaining depleted". -/
theorem c3_counterexample_failed_walk_leaves_ladder_unchanged :
    Phoenix.GetQuote { TakerFeeBps := 0 } { InAmount := 500, AToB := true }
        { Asks := [⟨25, 10⟩], Bids := [⟨20, 10⟩] } =
      (Except.error Phoenix.LadderErr.notEnoughForRequested,
       { Asks := [⟨25, 10⟩], Bids := [⟨20, 10⟩] }) := by
  norm_num [Phoenix.GetQuote, Phoenix.getExpectedOutAmount, Phoenix.applyTakerFee,
    Phoenix.FeeScale, Phoenix.getBaseUnitsOutFromQuoteUnitsIn,
    Phoenix.calculateBaseAmountFromQuoteBudget, Phoenix.calcBaseLoop]

/-- Claim C3, amended: whenever the fee-adjusted budget is still strictly
positive after the walk exhausts all levels of the walked side, the engine
reports the insufficient-liquidity error and the ladder is returned
unchanged (no partial consumption persists, because the walk never touches
the levels and the depletion step runs only on success). -/
theorem c3_insufficient_liquidity_error_ladder_unchanged (h : Phoenix.Hoenix)
    (p : Phoenix.QuoteParams) (ladder : Phoenix.UiLadder)
    (hin : 0 < p.InAmount)
    (hadj : 0 < Phoenix.applyTakerFee p.InAmount h.TakerFeeBps)
    (hrem : 0 < (if p.AToB then
        (Phoenix.calcBaseLoop ladder.Asks
          (Phoenix.applyTakerFee p.InAmount h.TakerFeeBps)).2
      else
        (Phoenix.calcQuoteLoop ladder.Bids
          (Phoenix.applyTakerFee p.InAmount h.TakerFeeBps)).2)) :
    Phoenix.GetQuote h p ladder =
      (Except.error Phoenix.LadderErr.notEnoughForRequested, ladder) := by
  cases hab : p.AToB with
  | true =>
    rw [hab] at hrem
    rw [if_pos rfl] at hrem
    have hexp : Phoenix.getExpectedOutAmount h ladder Phoenix.Side.Bid
        h.TakerFeeBps p.InAmount =
        Except.error Phoenix.LadderErr.notEnoughLiquidity := by
      unfold Phoenix.getExpectedOutAmount
      rw [if_neg (not_le.mpr hin)]
      dsimp only
      unfold Phoenix.getBaseUnitsOutFromQuoteUnitsIn
      rw [if_neg (not_le.mpr hadj)]
      unfold Phoenix.calculateBaseAmountFromQuoteBudget
      dsimp only
      rw [if_pos hrem]
    unfold Phoenix.GetQuote
    dsimp only
    rw [hab]
    simp only [if_true]
    rw [hexp]
    simp
  | false =>
    rw [hab] at hrem
    simp only [Bool.false_eq_true, if_false] at hrem
    have hexp : Phoenix.getExpectedOutAmount h ladder Phoenix.Side.Ask
        h.TakerFeeBps p.InAmount =
        Except.error Phoenix.LadderErr.notEnoughLiquidity := by
      unfold Phoenix.getExpectedOutAmount
      rw [if_neg (not_le.mpr hin)]
      dsimp only
      unfold Phoenix.getQuoteUnitsOutFromBaseUnitsIn
      rw [if_neg (not_le.mpr hadj)]
      unfold Phoenix.calculateQuoteAmountFromBaseBudget
      dsimp only
      rw [if_pos hrem]
    unfold Phoenix.GetQuote
    dsimp only
    rw [hab]
    simp only [Bool.false_eq_true, if_false]
    rw [hexp]
    simp

/-- Claim C3, witness for the amended theorem at a concrete input whose
fee-adjusted budget exceeds the whole ask side. -/
theorem c3_insufficient_liquidity_error_ladder_unchanged_witness :
    Phoenix.GetQuote { TakerFeeBps := 5 } { InAmount := 200, AToB := true }
        { Asks := [⟨30, 5⟩], Bids := [⟨20, 3⟩] } =
      (Except.error Phoenix.LadderErr.notEnoughForRequested,
       { Asks := [⟨30, 5⟩], Bids := [⟨20, 3⟩] }) :=
  c3_insufficient_liquidity_error_ladder_unchanged { TakerFeeBps := 5 }
    { InAmount := 200, AToB := true } { Asks := [⟨30, 5⟩], Bids := [⟨20, 3⟩] }
    (by norm_num)
    (by norm_num [Phoenix.applyTakerFee, Phoenix.FeeScale])
    (by norm_num [Phoenix.applyTakerFee, Phoenix.FeeScale, Phoenix.calcBaseLoop])

/-- Claim C6: the ladder walk is greedy in level order.  On the ask walk a
level whose notional `price * size` covers the remaining budget contributes
`budget / price` and stops the walk with budget zero, otherwise the whole
level is consumed and its notional is subtracted; the bid walk is the
mirror image comparing size against the budget and contributing
`budget * price`.  In the claimed scenario (asks (25,10),(30,5),(35,2),
fee 5 bp, quote(150, AtoB)) only the 25-priced level is partially consumed
(its size drops to 2670/667, strictly between 0 and 10) and the remaining
ask levels are untouched. -/
theorem c6_greedy_level_walk :
    (∀ (level : Phoenix.UiLadderLevel) (rest : List Phoenix.UiLadderLevel)
        (budget : ℚ), level.Price * level.Quantity ≥ budget →
      Phoenix.calcBaseLoop (level :: rest) budget = (budget / level.Price, 0)) ∧
    (∀ (level : Phoenix.UiLadderLevel) (rest : List Phoenix.UiLadderLevel)
        (budget : ℚ), ¬(level.Price * level.Quantity ≥ budget) →
      0 < budget - level.Price * level.Quantity →
      Phoenix.calcBaseLoop (level :: rest) budget =
        (level.Quantity +
          (Phoenix.calcBaseLoop rest (budget - level.Price * level.Quantity)).1,
         (Phoenix.calcBaseLoop rest (budget - level.Price * level.Quantity)).2)) ∧
    (∀ (level : Phoenix.UiLadderLevel) (rest : List Phoenix.UiLadderLevel)
        (budget : ℚ), level.Quantity ≥ budget →
      Phoenix.calcQuoteLoop (level :: rest) budget =
        (budget * level.Price, 0)) ∧
    (∀ (level : Phoenix.UiLadderLevel) (rest : List Phoenix.UiLadderLevel)
        (budget : ℚ), ¬(level.Quantity ≥ budget) →
      0 < budget - level.Quantity →
      Phoenix.calcQuoteLoop (level :: rest) budget =
        (level.Quantity * level.Price +
          (Phoenix.calcQuoteLoop rest (budget - level.Quantity)).1,
         (Phoenix.calcQuoteLoop rest (budget - level.Quantity)).2)) ∧
    (Phoenix.GetQuote { TakerFeeBps := 5 } { InAmount := 150, AToB := true }
        { Asks := [⟨25, 10⟩, ⟨30, 5⟩, ⟨35, 2⟩],
          Bids := [⟨20, 10⟩, ⟨15, 5⟩, ⟨10, 2⟩] } =
      (Except.ok { InAmount := 150, OutAmount := 4000 / 667 },
       { Asks := [⟨25, 2670 / 667⟩, ⟨30, 5⟩, ⟨35, 2⟩],
         Bids := [⟨20, 10⟩, ⟨15, 5⟩, ⟨10, 2⟩] }) ∧
     (0 : ℚ) < 2670 / 667 ∧ (2670 / 667 : ℚ) < 10) := by
  refine ⟨?_, ?_, ?_, ?_, ?_, by norm_num, by norm_num⟩
  · intro level rest budget hc
    rw [Phoenix.calcBaseLoop, if_pos hc]
  · intro level rest budget hc hpos
    rw [Phoenix.calcBaseLoop, if_neg hc]
    dsimp only
    rw [if_neg (not_le.mpr hpos)]
  · intro level rest budget hc
    rw [Phoenix.calcQuoteLoop, if_pos hc]
  · intro level rest budget hc hpos
    rw [Phoenix.calcQuoteLoop, if_neg hc]
    dsimp only
    rw [if_neg (not_le.mpr hpos)]
  · norm_num [Phoenix.GetQuote, Phoenix.getExpectedOutAmount,
      Phoenix.applyTakerFee, Phoenix.FeeScale,
      Phoenix.getBaseUnitsOutFromQuoteUnitsIn,
      Phoenix.calculateBaseAmountFromQuoteBudget, Phoenix.calcBaseLoop,
      Phoenix.updateLadderLiquidity, Phoenix.updateSide]
    rintro (hcon | hcon) <;> exact absurd hcon (List.cons_ne_nil _ _)

/-- Claim C6, witness for the quantified parts at concrete levels. -/
theorem c6_greedy_level_walk_witness :
    Phoenix.calcBaseLoop [⟨2, 3⟩] 4 = ((4 : ℚ) / 2, 0) ∧
    Phoenix.calcQuoteLoop [⟨2, 3⟩] 1 = ((1 : ℚ) * 2, 0) :=
  ⟨c6_greedy_level_walk.1 ⟨2, 3⟩ [] 4 (by norm_num),
   c6_greedy_level_walk.2.2.1 ⟨2, 3⟩ [] 1 (by norm_num)⟩

/-- Claim C7, counterexample: with fee 0, asks [(25,10)], bids [(20,10)],
`quote(250, AtoB)` succeeds and drains the single ask level to size 0 —
the ask side has become fully empty of liquidity — yet the wrapper returns
success, because its check looks only at slice emptiness (`len == 0`) and
the update never removes levels. -/
theorem c7_counterexample_drained_side_not_flagged :
    Phoenix.GetQuote { TakerFeeBps := 0 } { InAmount := 250, AToB := true }
        { Asks := [⟨25, 10⟩], Bids := [⟨20, 10⟩] } =
      (Except.ok { InAmount := 250, OutAmount := 10 },
       { Asks := [⟨25, 0⟩], Bids := [⟨20, 10⟩] }) ∧
    Phoenix.totalQty [(⟨25, 0⟩ : Phoenix.UiLadderLevel)] = 0 := by
  constructor
  · norm_num [Phoenix.GetQuote, Phoenix.getExpectedOutAmount,
      Phoenix.applyTakerFee, Phoenix.FeeScale,
      Phoenix.getBaseUnitsOutFromQuoteUnitsIn,
      Phoenix.calculateBaseAmountFromQuoteBudget, Phoenix.calcBaseLoop,
      Phoenix.updateLadderLiquidity, Phoenix.updateSide]
  · norm_num [Phoenix.totalQty]

/-- Claim C7, amended: after a successful walk the wrapper returns the
exhausted-ladder error exactly when one side of the ladder is an empty
slice — and since the update step never removes levels, that happens
exactly when that side was already an empty slice before the call; a side
whose levels all reach size 0 does not trigger the error. -/
theorem c7_exhausted_flag_iff_empty_slice (h : Phoenix.Hoenix)
    (p : Phoenix.QuoteParams) (ladder : Phoenix.UiLadder) (out : ℚ)
    (hok : Phoenix.getExpectedOutAmount h ladder
        (if p.AToB then Phoenix.Side.Bid else Phoenix.Side.Ask)
        h.TakerFeeBps p.InAmount = Except.ok out) :
    (Phoenix.GetQuote h p ladder).1 =
        Except.error Phoenix.LadderErr.updatedLadderEmpty ↔
      (ladder.Asks = [] ∨ ladder.Bids = []) := by
  unfold Phoenix.GetQuote
  dsimp only
  rw [hok]
  cases hab : p.AToB with
  | true =>
    simp only [hab, if_true, Phoenix.updateLadderLiquidity]
    by_cases hemp : Phoenix.updateSide ladder.Asks out = [] ∨ ladder.Bids = []
    · rw [if_pos hemp]
      exact iff_of_true rfl
        (hemp.imp (fun hh => (Phoenix.updateSide_eq_nil_iff _ _).mp hh) id)
    · rw [if_neg hemp]
      refine iff_of_false (by simp) ?_
      intro hcon
      exact hemp
        (hcon.imp (fun hh => (Phoenix.updateSide_eq_nil_iff _ _).mpr hh) id)
  | false =>
    simp only [hab, Bool.false_eq_true, if_false, Phoenix.updateLadderLiquidity]
    by_cases hemp : ladder.Asks = [] ∨
      Phoenix.updateSide ladder.Bids p.InAmount = []
    · rw [if_pos hemp]
      exact iff_of_true rfl
        (hemp.imp id (fun hh => (Phoenix.updateSide_eq_nil_iff _ _).mp hh))
    · rw [if_neg hemp]
      refine iff_of_false (by simp) ?_
      intro hcon
      exact hemp
        (hcon.imp id (fun hh => (Phoenix.updateSide_eq_nil_iff _ _).mpr hh))

/-- Claim C7, witness: with an already-empty bid slice the flag fires. -/
theorem c7_exhausted_flag_iff_empty_slice_witness :
    (Phoenix.GetQuote { TakerFeeBps := 0 } { InAmount := 250, AToB := true }
        { Asks := [⟨25, 10⟩], Bids := [] }).1 =
        Except.error Phoenix.LadderErr.updatedLadderEmpty ↔
      (([⟨25, 10⟩] : List Phoenix.UiLadderLevel) = [] ∨
       ([] : List Phoenix.UiLadderLevel) = []) :=
  c7_exhausted_flag_iff_empty_slice { TakerFeeBps := 0 }
    { InAmount := 250, AToB := true } { Asks := [⟨25, 10⟩], Bids := [] } 10
    (by norm_num [Phoenix.getExpectedOutAmount, Phoenix.applyTakerFee,
      Phoenix.FeeScale, Phoenix.getBaseUnitsOutFromQuoteUnitsIn,
      Phoenix.calculateBaseAmountFromQuoteBudget, Phoenix.calcBaseLoop])

/-- Claim C8, counterexample: in the BtoA direction the matched amount
(`OutAmount`, in quote units) can exceed the size removed from the walked
bid side (the code subtracts the raw `InAmount`, in base units): with fee 0
and bids [(20,10)], `quote(5, BtoA)` matches 100 quote units but the bid
side's total size only drops from 10 to 5 — a decrease of 5, far less than
the matched amount 100. -/
theorem c8_counterexample_btoa_decrease_below_matched :
    Phoenix.GetQuote { TakerFeeBps := 0 } { InAmount := 5, AToB := false }
        { Asks := [⟨25, 10⟩], Bids := [⟨20, 10⟩] } =
      (Except.ok { InAmount := 5, OutAmount := 100 },
       { Asks := [⟨25, 10⟩], Bids := [⟨20, 5⟩] }) ∧
    Phoenix.totalQty [(⟨20, 10⟩ : Phoenix.UiLadderLevel)] -
        Phoenix.totalQty [(⟨20, 5⟩ : Phoenix.UiLadderLevel)] < 100 := by
  constructor
  · norm_num [Phoenix.GetQuote, Phoenix.getExpectedOutAmount,
      Phoenix.applyTakerFee, Phoenix.FeeScale,
      Phoenix.getQuoteUnitsOutFromBaseUnitsIn,
      Phoenix.calculateQuoteAmountFromBaseBudget, Phoenix.calcQuoteLoop,
      Phoenix.updateLadderLiquidity, Phoenix.updateSide]
  · norm_num [Phoenix.totalQty]

/-- Claim C8, amended: for every successful ladder quote on a ladder with
positive prices and non-negative sizes, no level's size increases; in the
AtoB direction the walked (ask) side's total size decreases by exactly the
matched `OutAmount`; in the BtoA direction the walked (bid) side's total
size decreases by `min(InAmount, total)` — the raw input amount, which can
be less than the quote-denominated matched amount. -/
theorem c8_no_size_increase_and_walked_side_depletion (h : Phoenix.Hoenix)
    (p : Phoenix.QuoteParams) (ladder : Phoenix.UiLadder)
    (q : Phoenix.Quote) (lad2 : Phoenix.UiLadder)
    (hasks : ∀ l ∈ ladder.Asks, 0 < l.Price ∧ 0 ≤ l.Quantity)
    (hbids : ∀ l ∈ ladder.Bids, 0 < l.Price ∧ 0 ≤ l.Quantity)
    (hok : Phoenix.GetQuote h p ladder = (Except.ok q, lad2)) :
    (List.Forall₂ (fun l l2 => l2.Quantity ≤ l.Quantity) ladder.Asks lad2.Asks ∧
     List.Forall₂ (fun l l2 => l2.Quantity ≤ l.Quantity) ladder.Bids lad2.Bids) ∧
    (p.AToB = true → Phoenix.totalQty lad2.Asks =
      Phoenix.totalQty ladder.Asks - q.OutAmount) ∧
    (p.AToB = false → Phoenix.totalQty lad2.Bids =
      Phoenix.totalQty ladder.Bids -
        min p.InAmount (Phoenix.totalQty ladder.Bids)) := by
  obtain ⟨out, hexp, hq, hlad, hne⟩ :=
    Phoenix.getQuote_ok_inv h p ladder q lad2 hok
  cases hab : p.AToB with
  | true =>
    rw [hab] at hexp hlad
    simp only [if_true] at hexp hlad
    obtain ⟨hin, hadj, hout, hrem⟩ :=
      Phoenix.getExpectedOutAmount_bid_ok h ladder h.TakerFeeBps p.InAmount out hexp
    have hqa : ∀ l ∈ ladder.Asks, 0 ≤ l.Quantity := fun l hl => (hasks l hl).2
    have hout_nonneg : 0 ≤ out :=
      hout ▸ Phoenix.calcBaseLoop_fst_nonneg ladder.Asks
        (Phoenix.applyTakerFee p.InAmount h.TakerFeeBps) hasks (le_of_lt hadj)
    have hout_le : out ≤ Phoenix.totalQty ladder.Asks :=
      hout ▸ Phoenix.calcBaseLoop_fst_le_total ladder.Asks
        (Phoenix.applyTakerFee p.InAmount h.TakerFeeBps) hasks
    refine ⟨⟨?_, ?_⟩, ?_, ?_⟩
    · rw [hlad]
      exact Phoenix.forall₂_qty_updateSide ladder.Asks out hout_nonneg hqa
    · rw [hlad]
      exact Phoenix.forall₂_qty_refl ladder.Bids
    · intro _
      rw [hlad, hq]
      dsimp only
      rw [Phoenix.totalQty_updateSide ladder.Asks out hout_nonneg hqa,
        min_eq_left hout_le]
    · intro hcon
      exact Bool.noConfusion hcon
  | false =>
    rw [hab] at hexp hlad
    simp only [Bool.false_eq_true, if_false] at hexp hlad
    obtain ⟨hin, hadj, hout, hrem⟩ :=
      Phoenix.getExpectedOutAmount_ask_ok h ladder h.TakerFeeBps p.InAmount out hexp
    have hqb : ∀ l ∈ ladder.Bids, 0 ≤ l.Quantity := fun l hl => (hbids l hl).2
    refine ⟨⟨?_, ?_⟩, ?_, ?_⟩
    · rw [hlad]
      exact Phoenix.forall₂_qty_refl ladder.Asks
    · rw [hlad]
      exact Phoenix.forall₂_qty_updateSide ladder.Bids p.InAmount
        (le_of_lt hin) hqb
    · intro hcon
      exact Bool.noConfusion hcon
    · intro _
      rw [hlad]
      dsimp only
      rw [Phoenix.totalQty_updateSide ladder.Bids p.InAmount (le_of_lt hin) hqb]

/-- Claim C8, witness for the amended theorem on a concrete BtoA quote. -/
theorem c8_no_size_increase_and_walked_side_depletion_witness :
    (List.Forall₂ (fun l l2 : Phoenix.UiLadderLevel => l2.Quantity ≤ l.Quantity)
        [⟨25, 10⟩] [⟨25, 10⟩] ∧
     List.Forall₂ (fun l l2 : Phoenix.UiLadderLevel => l2.Quantity ≤ l.Quantity)
        [⟨20, 10⟩] [⟨20, 8⟩]) ∧
    (false = true → Phoenix.totalQty [(⟨25, 10⟩ : Phoenix.UiLadderLevel)] =
      Phoenix.totalQty [(⟨25, 10⟩ : Phoenix.UiLadderLevel)] -
        (2 : ℚ) * 20) ∧
    (false = false → Phoenix.totalQty [(⟨20, 8⟩ : Phoenix.UiLadderLevel)] =
      Phoenix.totalQty [(⟨20, 10⟩ : Phoenix.UiLadderLevel)] -
        min 2 (Phoenix.totalQty [(⟨20, 10⟩ : Phoenix.UiLadderLevel)])) :=
  c8_no_size_increase_and_walked_side_depletion { TakerFeeBps := 0 }
    { InAmount := 2, AToB := false } { Asks := [⟨25, 10⟩], Bids := [⟨20, 10⟩] }
    { InAmount := 2, OutAmount := 2 * 20 } { Asks := [⟨25, 10⟩], Bids := [⟨20, 8⟩] }
    (by intro l hl
        simp only [List.mem_singleton] at hl
        subst hl
        norm_num)
    (by intro l hl
        simp only [List.mem_singleton] at hl
        subst hl
        norm_num)
    (by norm_num [Phoenix.GetQuote, Phoenix.getExpectedOutAmount,
        Phoenix.applyTakerFee, Phoenix.FeeScale,
        Phoenix.getQuoteUnitsOutFromBaseUnitsIn,
        Phoenix.calculateQuoteAmountFromBaseBudget, Phoenix.calcQuoteLoop,
        Phoenix.updateLadderLiquidity, Phoenix.updateSide])

/-- Claim C9: a ladder error does not imply an unchanged ladder.  Whenever
the bid side is an empty slice but the ask walk fills an AtoB request, the
ask levels are depleted, the computed quote is discarded, and the
exhausted-ladder error is returned; concretely, with asks [(25,10)], no
bids and fee 0, `quote(150, AtoB)` returns the exhausted-ladder error while
the ask level has shrunk from 10 to 4. -/
theorem c9_error_after_mutation :
    (∀ (h : Phoenix.Hoenix) (p : Phoenix.QuoteParams) (ladder : Phoenix.UiLadder)
        (out : ℚ), p.AToB = true → ladder.Bids = [] →
      Phoenix.getExpectedOutAmount h ladder Phoenix.Side.Bid h.TakerFeeBps
          p.InAmount = Except.ok out →
      Phoenix.GetQuote h p ladder =
        (Except.error Phoenix.LadderErr.updatedLadderEmpty,
         { Asks := Phoenix.updateSide ladder.Asks out, Bids := [] })) ∧
    Phoenix.GetQuote { TakerFeeBps := 0 } { InAmount := 150, AToB := true }
        { Asks := [⟨25, 10⟩], Bids := [] } =
      (Except.error Phoenix.LadderErr.updatedLadderEmpty,
       { Asks := [⟨25, 4⟩], Bids := [] }) := by
  constructor
  · intro h p ladder out hab hbids hexp
    unfold Phoenix.GetQuote
    dsimp only
    rw [hab]
    simp only [if_true]
    rw [hexp]
    dsimp only
    simp only [Phoenix.updateLadderLiquidity]
    rw [if_pos (Or.inr hbids), hbids]
  · norm_num [Phoenix.GetQuote, Phoenix.getExpectedOutAmount,
      Phoenix.applyTakerFee, Phoenix.FeeScale,
      Phoenix.getBaseUnitsOutFromQuoteUnitsIn,
      Phoenix.calculateBaseAmountFromQuoteBudget, Phoenix.calcBaseLoop,
      Phoenix.updateLadderLiquidity, Phoenix.updateSide]

/-- Claim C9, witness for the quantified part at a concrete instance. -/
theorem c9_error_after_mutation_witness :
    Phoenix.GetQuote { TakerFeeBps := 0 } { InAmount := 100, AToB := true }
        { Asks := [⟨25, 10⟩], Bids := [] } =
      (Except.error Phoenix.LadderErr.updatedLadderEmpty,
       { Asks := Phoenix.updateSide [⟨25, 10⟩] 4, Bids := [] }) :=
  c9_error_after_mutation.1 { TakerFeeBps := 0 } { InAmount := 100, AToB := true }
    { Asks := [⟨25, 10⟩], Bids := [] } 4 rfl rfl
    (by norm_num [Phoenix.getExpectedOutAmount, Phoenix.applyTakerFee,
      Phoenix.FeeScale, Phoenix.getBaseUnitsOutFromQuoteUnitsIn,
      Phoenix.calculateBaseAmountFromQuoteBudget, Phoenix.calcBaseLoop])
